import Mathlib

/-!
Verification of the tslox Resolver pass and the LoxClass runtime object,
shallowly embedded from the TypeScript source (`Resolver.ts`, `ast/LoxClass.ts`).

The Resolver is modelled as explicit state passing over a `ResolverState`
carrying the scope stack, the current function/class kinds, the accumulated
resolution diagnostics (in report order) and the depth table handed to the
interpreter (`interpreter.resolve(expr, depth)` becomes an append to an
event list keyed by AST node identity).

JavaScript objects `Record<string, boolean>` are modelled as association
lists with first-match lookup and replace-or-append update; the `Stack`
subclass of `Array` is a `List Scope` whose LAST element is the top of the
stack (`peek`), matching the array indexing used by `resolveLocal`.
-/

/-- A token, as used by the Resolver: lexeme text and 1-based source line. -/
structure Token where
  lexeme : String
  line : Nat
deriving Repr, DecidableEq

/-- The source's enum FunctionType. -/
inductive FunctionType where
  | none
  | function
  | initializer
  | method
deriving Repr, DecidableEq

/-- The source's enum ClassType (`None`, `Class`, `SubClass`). -/
inductive ClassType where
  | none
  | klass
  | subClass
deriving Repr, DecidableEq

/-- The kinds of `ResolvingError` the Resolver can report, one per
`errorReporter.report(new ResolvingError(...))` site in the source. -/
inductive ResolvingErrorKind where
  | selfInheritance
  | returnTopLevel
  | returnValueFromInitializer
  | superOutsideClass
  | superInNonSubclass
  | thisOutsideClass
  | readLocalInOwnInitializer
  | alreadyDeclaredInScope
deriving Repr, DecidableEq

/-- A reported resolution diagnostic: which error, at which source line. -/
structure ResolvingError where
  kind : ResolvingErrorKind
  line : Nat
deriving Repr, DecidableEq

/-- A scope, `type Scope = Record<string, boolean>`: an association list with
first-match lookup. -/
abbrev Scope := List (String × Bool)

/-- Lookup of a key in a scope (JS property read; `undefined` is `none`). -/
def scopeGet (s : Scope) (k : String) : Option Bool :=
  match s with
  | [] => Option.none
  | (k2, v) :: rest => if k2 = k then some v else scopeGet rest k

/-- JS property write `scope[k] = v`: overwrite in place or append. -/
def scopeSet (s : Scope) (k : String) (v : Bool) : Scope :=
  match s with
  | [] => [(k, v)]
  | (k2, v2) :: rest => if k2 = k then (k2, v) :: rest else (k2, v2) :: scopeSet rest k v

/-- Expression AST nodes reaching the Resolver. Nodes the Resolver keys into
the depth table (`AssignExpr`, `SuperExpr`, `ThisExpr`, `VariableExpr`) carry a
`Nat` node identity standing for JS object identity. -/
inductive Expr where
  | assign (id : Nat) (name : Token) (value : Expr)
  | binary (left : Expr) (right : Expr)
  | call (callee : Expr) (args : List Expr)
  | getE (object : Expr)
  | grouping (expression : Expr)
  | literal
  | logical (left : Expr) (right : Expr)
  | setE (value : Expr) (object : Expr)
  | superE (id : Nat) (keyword : Token)
  | thisE (id : Nat) (keyword : Token)
  | unary (right : Expr)
  | varE (id : Nat) (name : Token)

/-- Statement AST nodes. A class statement's superclass, when present, is the
`VariableExpr` `(node id, name token)` the parser built for it; its methods are
`FunctionStmt`s given as `(name, params, body)` triples. -/
inductive Stmt where
  | blockS (statements : List Stmt)
  | classS (name : Token) (superclass : Option (Nat × Token))
      (methods : List (Token × List Token × List Stmt))
  | exprS (expression : Expr)
  | funcS (name : Token) (params : List Token) (body : List Stmt)
  | ifS (condition : Expr) (thenBranch : Stmt) (elseBranch : Option Stmt)
  | printS (expression : Expr)
  | retS (keyword : Token) (value : Option Expr)
  | varS (name : Token) (initializer : Option Expr)
  | whileS (condition : Expr) (body : Stmt)

/-- The Resolver's mutable state: the scope stack (last element = innermost
scope), the two "current kind" fields, the diagnostics reported so far (in
order), and the interpreter's depth table as the list of
`(node id, depth)` entries in the order `interpreter.resolve` received them. -/
structure ResolverState where
  scopes : List Scope
  currentFunction : FunctionType
  currentClass : ClassType
  errors : List ResolvingError
  locals : List (Nat × Nat)
deriving Repr, DecidableEq

namespace Resolver

/-- The call `errorReporter.report(new ResolvingError(msg, line))`. -/
def report (st : ResolverState) (k : ResolvingErrorKind) (line : Nat) : ResolverState :=
  { st with errors := st.errors ++ [⟨k, line⟩] }

/-- The method `beginScope()`: push an empty scope. -/
def beginScope (st : ResolverState) : ResolverState :=
  { st with scopes := st.scopes ++ [[]] }

/-- The method `endScope()`: pop the top scope (a no-op on an empty stack, as
`Array.prototype.pop` is). -/
def endScope (st : ResolverState) : ResolverState :=
  { st with scopes := st.scopes.dropLast }

/-- Apply `f` to the last (innermost) scope of the stack, `scopes.peek()`. -/
def updateTop (scopes : List Scope) (f : Scope → Scope) : List Scope :=
  match scopes with
  | [] => []
  | [s] => [f s]
  | s :: rest => s :: updateTop rest f

/-- The method `declare(name)`: no-op on an empty stack; otherwise report a diagnostic if
the innermost scope already has an entry for the lexeme, then (in either case)
set the entry to `false`. -/
def declare (st : ResolverState) (name : Token) : ResolverState :=
  match st.scopes.getLast? with
  | Option.none => st
  | some scope =>
    let st1 := if (scopeGet scope name.lexeme).isSome then
        report st .alreadyDeclaredInScope name.line
      else st
    { st1 with scopes := updateTop st1.scopes (fun s => scopeSet s name.lexeme false) }

/-- The method `define(name)`: no-op on an empty stack; otherwise set the innermost
scope's entry for the lexeme to `true`. -/
def define (st : ResolverState) (name : Token) : ResolverState :=
  match st.scopes.getLast? with
  | Option.none => st
  | some _ => { st with scopes := updateTop st.scopes (fun s => scopeSet s name.lexeme true) }

/-- Whether stack slot `i` (0 = outermost) contains an entry for `k`:
`name.lexeme in this.scopes[i]`. -/
def containsAt (scopes : List Scope) (i : Nat) (k : String) : Bool :=
  match scopes.get? i with
  | some s => (scopeGet s k).isSome
  | Option.none => false

/-- The loop of `resolveLocal`: `for (let i = this.scopes.length - 1; i >= 0; i--)`,
returning the first stack index (scanning downward from `m - 1`) whose scope
contains `k`. -/
def scanScopes (scopes : List Scope) (k : String) : Nat → Option Nat
  | 0 => Option.none
  | i + 1 => if containsAt scopes i k then some i else scanScopes scopes k i

/-- The method `resolveLocal(expr, name)`: find the innermost scope containing the lexeme
and record depth `scopes.length - 1 - i` for the node; record nothing when no
scope contains it. -/
def resolveLocal (st : ResolverState) (id : Nat) (name : Token) : ResolverState :=
  match scanScopes st.scopes name.lexeme st.scopes.length with
  | some i => { st with locals := st.locals ++ [(id, st.scopes.length - 1 - i)] }
  | Option.none => st

/-- The method `visitVariableExpr`: report when the innermost scope holds the lexeme with
status `false`, then always `resolveLocal`. -/
def visitVariable (st : ResolverState) (id : Nat) (name : Token) : ResolverState :=
  let st1 :=
    if !st.scopes.isEmpty &&
        ((st.scopes.getLast?.bind (fun s => scopeGet s name.lexeme)) == some false) then
      report st .readLocalInOwnInitializer name.line
    else st
  resolveLocal st1 id name

/-- The method `visitThisExpr`: outside a class, report and return early (no
`resolveLocal`); otherwise `resolveLocal` the keyword. -/
def visitThis (st : ResolverState) (id : Nat) (keyword : Token) : ResolverState :=
  if st.currentClass = ClassType.none then
    report st .thisOutsideClass keyword.line
  else
    resolveLocal st id keyword

/-- The method `visitSuperExpr`: report outside a class, or in a class with no
superclass; in every case fall through to `resolveLocal` on the keyword. -/
def visitSuper (st : ResolverState) (id : Nat) (keyword : Token) : ResolverState :=
  let st1 :=
    if st.currentClass = ClassType.none then
      report st .superOutsideClass keyword.line
    else if st.currentClass ≠ ClassType.subClass then
      report st .superInNonSubclass keyword.line
    else st
  resolveLocal st1 id keyword

mutual

/-- Expression dispatch (`ExprVisitor` methods of the Resolver). -/
def resolveExpr : Expr → ResolverState → ResolverState
  | .assign id name value, st => resolveLocal (resolveExpr value st) id name
  | .binary l r, st => resolveExpr r (resolveExpr l st)
  | .call callee args, st => resolveExprs args (resolveExpr callee st)
  | .getE o, st => resolveExpr o st
  | .grouping e, st => resolveExpr e st
  | .literal, st => st
  | .logical l r, st => resolveExpr l (resolveExpr r st)
  | .setE v o, st => resolveExpr o (resolveExpr v st)
  | .superE id kw, st => visitSuper st id kw
  | .thisE id kw, st => visitThis st id kw
  | .unary r, st => resolveExpr r st
  | .varE id name, st => visitVariable st id name

/-- The loop `for (const arg of expr.args) this.resolve(arg)`. -/
def resolveExprs : List Expr → ResolverState → ResolverState
  | [], st => st
  | e :: es, st => resolveExprs es (resolveExpr e st)

/-- Statement dispatch (`StmtVisitor` methods of the Resolver). -/
def resolveStmt : Stmt → ResolverState → ResolverState
  | .blockS stmts, st => endScope (resolveStmts stmts (beginScope st))
  | .classS name superclass methods, st =>
    let enclosingClass := st.currentClass
    let st1 := { st with currentClass := ClassType.klass }
    let st2 := define (declare st1 name) name
    let st3 :=
      match superclass with
      | some (sid, sname) =>
        if name.lexeme = sname.lexeme then
          report st2 .selfInheritance sname.line
        else
          let sta := { st2 with currentClass := ClassType.subClass }
          let stb := visitVariable sta sid sname
          let stc := beginScope stb
          { stc with scopes := updateTop stc.scopes (fun s => scopeSet s "super" true) }
      | Option.none => st2
    let st4 := beginScope st3
    let st5 := { st4 with scopes := updateTop st4.scopes (fun s => scopeSet s "this" true) }
    let st6 := resolveMethods methods st5
    let st7 := endScope st6
    let st8 :=
      match superclass with
      | some _ => endScope st7
      | Option.none => st7
    { st8 with currentClass := enclosingClass }
  | .exprS e, st => resolveExpr e st
  | .funcS name params body, st =>
    resolveFunctionBody params body FunctionType.function (define (declare st name) name)
  | .ifS cond thenB elseB, st =>
    let st1 := resolveStmt thenB (resolveExpr cond st)
    match elseB with
    | some s => resolveStmt s st1
    | Option.none => st1
  | .printS e, st => resolveExpr e st
  | .retS keyword value, st =>
    let st1 :=
      if st.currentFunction = FunctionType.none then
        report st .returnTopLevel keyword.line
      else st
    match value with
    | Option.none => st1
    | some e =>
      let st2 :=
        if st.currentFunction = FunctionType.initializer then
          report st1 .returnValueFromInitializer keyword.line
        else st1
      resolveExpr e st2
  | .varS name initializer, st =>
    let st1 := declare st name
    let st2 :=
      match initializer with
      | some e => resolveExpr e st1
      | Option.none => st1
    define st2 name
  | .whileS cond body, st => resolveStmt body (resolveExpr cond st)

/-- The overload `resolve(statements)` over a statement list. -/
def resolveStmts : List Stmt → ResolverState → ResolverState
  | [], st => st
  | s :: ss, st => resolveStmts ss (resolveStmt s st)

/-- The method `resolveFunction(func, type)`: save/set the current function kind, open a
scope, declare+define every parameter, resolve the body, close the scope,
restore the kind. -/
def resolveFunctionBody (params : List Token) (body : List Stmt) (type : FunctionType)
    (st : ResolverState) : ResolverState :=
  let enclosingFunction := st.currentFunction
  let st1 := { st with currentFunction := type }
  let st2 := beginScope st1
  let st3 := params.foldl (fun s p => define (declare s p) p) st2
  let st4 := resolveStmts body st3
  let st5 := endScope st4
  { st5 with currentFunction := enclosingFunction }

/-- The method loop of `visitClassStmt`: each method is resolved as a function
of kind `Initializer` when named `init`, else `Method`. -/
def resolveMethods : List (Token × List Token × List Stmt) → ResolverState → ResolverState
  | [], st => st
  | (name, params, body) :: rest, st =>
    let declaration :=
      if name.lexeme = "init" then FunctionType.initializer else FunctionType.method
    resolveMethods rest (resolveFunctionBody params body declaration st)

end

end Resolver

/-!
The runtime object model needed by `LoxClass.ts`. Only `LoxClass` itself is
among the given sources; `LoxFunction` is external to them, so it is kept
abstract here: all that `LoxClass` uses of a method is its `arity()` and the
fact that `bind(instance).call(interpreter, args)` produces some value (which
`LoxClass.call` discards). `result` stands for that produced value.
-/

/-- Runtime values, as far as these claims need them: opaque data that can be
passed as constructor arguments or produced by an initializer call. -/
inductive LoxValue where
  | nil
  | boolean (b : Bool)
  | number (n : Int)
  | str (s : String)
deriving Repr, DecidableEq

/-- Abstraction of a `LoxFunction`: its arity and the (opaque) value a bound
call of it would produce. -/
structure LoxFunction where
  arity : Nat
  result : LoxValue
deriving Repr, DecidableEq

/-- First-match lookup in a method table `Record<string, LoxFunction>`,
covering both `name in this.methods` (`isSome`) and `this.methods[name]`. -/
def methodLookup (m : List (String × LoxFunction)) (k : String) : Option LoxFunction :=
  match m with
  | [] => Option.none
  | (k2, f) :: rest => if k2 = k then some f else methodLookup rest k

/-- A `LoxClass`: name, method table, and a superclass that is either absent
(`base`, `superclass === null`) or another class (`derived`). -/
inductive LoxClass where
  | base (name : String) (methods : List (String × LoxFunction))
  | derived (name : String) (superclass : LoxClass) (methods : List (String × LoxFunction))
deriving Repr, DecidableEq

/-- The class's own method table. -/
def LoxClass.methods : LoxClass → List (String × LoxFunction)
  | .base _ ms => ms
  | .derived _ _ ms => ms

/-- The method `findMethod(name)`: own table first, else delegate to the
superclass, else null. -/
def LoxClass.findMethod : LoxClass → String → Option LoxFunction
  | .base _ ms, name => methodLookup ms name
  | .derived _ sup ms, name =>
    match methodLookup ms name with
    | some f => some f
    | Option.none => sup.findMethod name

/-- The superclass chain starting at the class itself, in delegation order. -/
def LoxClass.ancestors : LoxClass → List LoxClass
  | .base n ms => [.base n ms]
  | .derived n sup ms => .derived n sup ms :: sup.ancestors

/-- A `LoxInstance`: its class and its (initially empty) field map. -/
structure LoxInstance where
  klass : LoxClass
  fields : List (String × LoxValue)
deriving Repr, DecidableEq

/-- Observable outcome of `LoxClass.call`: the value returned, plus which
initializer (if any) was bound to which instance and called with which
arguments. The value that call produced appears nowhere in `result`. -/
structure ClassCallResult where
  result : LoxInstance
  initCall : Option (LoxFunction × LoxInstance × List LoxValue)
deriving Repr, DecidableEq

/-- The method `call(interpreter, args)`: create a fresh instance; if
`findMethod('init')` yields an initializer, bind it to the instance and call
it with the arguments (discarding what it returns); return the instance. -/
def LoxClass.call (c : LoxClass) (args : List LoxValue) : ClassCallResult :=
  let inst : LoxInstance := ⟨c, []⟩
  match c.findMethod "init" with
  | some f => ⟨inst, some (f, inst, args)⟩
  | Option.none => ⟨inst, Option.none⟩

/-- The method `arity()`: the arity of the initializer found by
`findMethod('init')`, or 0 when there is none. -/
def LoxClass.arity (c : LoxClass) : Nat :=
  match c.findMethod "init" with
  | Option.none => 0
  | some f => f.arity

/-!
Concrete inputs used by individual claims.
-/

/-- A state with one enclosing (block) scope, about to resolve a class
declaration nested inside that block. -/
def c2State : ResolverState := ⟨[[]], FunctionType.none, ClassType.none, [], []⟩

/-- The statement `class B < B {}` (a class naming itself as its superclass),
whose superclass variable node has id 0. -/
def c2Stmt : Stmt := .classS ⟨"B", 1⟩ (some (0, ⟨"B", 1⟩)) []

/-- A state outside any class whose single scope binds `this`, so that a
recorded depth for a `this` keyword would be observable. -/
def c3State : ResolverState := ⟨[[("this", true)]], FunctionType.none, ClassType.none, [], []⟩

/-- A state with a single scope binding both `a` and `b`, used to observe the
order in which operands of logical and binary expressions are resolved. -/
def c8State : ResolverState := ⟨[[("a", true), ("b", true)]], FunctionType.none, ClassType.none, [], []⟩

/-- A class whose own `init` takes zero parameters. -/
def c10Class : LoxClass := .base "A" [("init", ⟨0, LoxValue.nil⟩)]

/-- The list of diagnostics `visitReturnStmt` itself reports for a given
current function kind and presence of a return value, in report order. -/
def returnErrors (ft : FunctionType) (hasValue : Bool) (line : Nat) : List ResolvingError :=
  (if ft = FunctionType.none then [⟨.returnTopLevel, line⟩] else []) ++
  (if hasValue = true ∧ ft = FunctionType.initializer then
    [⟨.returnValueFromInitializer, line⟩] else [])

/-- A state with two scopes: the outer binds `x`, the inner binds `y`. -/
def c1State : ResolverState :=
  ⟨[[("x", true)], [("y", true)]], FunctionType.none, ClassType.none, [], []⟩

/-- A state with one (block) scope whose innermost scope is empty. -/
def c4State : ResolverState := ⟨[[]], FunctionType.none, ClassType.none, [], []⟩

/-- An initializer of arity 1 for the C9 witness. -/
def c9Init : LoxFunction := ⟨1, LoxValue.nil⟩

/-- A subclass with no own methods whose superclass defines `init`. -/
def c9Class : LoxClass := .derived "B" (.base "A" [("init", c9Init)]) []

/-- A subclass with no own methods inheriting an `init` of arity 2. -/
def c10Inherit : LoxClass := .derived "B" (.base "A" [("init", ⟨2, LoxValue.nil⟩)]) []

namespace Resolver

theorem scanScopes_some (scopes : List Scope) (k : String) :
    ∀ m i, i < m → containsAt scopes i k = true →
      (∀ j, j < m → i < j → containsAt scopes j k = false) →
      scanScopes scopes k m = some i := by
  intro m
  induction m with
  | zero => intro i hi; omega
  | succ m ih =>
    intro i hi hc hnone
    by_cases h : containsAt scopes m k = true
    · have hieq : i = m := by
        by_contra hne
        have hlt : i < m := by omega
        have := hnone m (by omega) hlt
        rw [h] at this
        cases this
      subst hieq
      simp [scanScopes, h]
    · have hm : containsAt scopes m k = false := by
        cases hcm : containsAt scopes m k
        · rfl
        · exact absurd hcm h
      have hi2 : i < m := by
        rcases Nat.lt_succ_iff_lt_or_eq.mp hi with h1 | h1
        · exact h1
        · subst h1; rw [hc] at hm; cases hm
      rw [scanScopes, hm]
      simp only [Bool.false_eq_true, if_false]
      exact ih i hi2 hc (fun j hj hij => hnone j (by omega) hij)

theorem scanScopes_none (scopes : List Scope) (k : String) :
    ∀ m, (∀ j, j < m → containsAt scopes j k = false) → scanScopes scopes k m = Option.none := by
  intro m
  induction m with
  | zero => intro; rfl
  | succ m ih =>
    intro hnone
    rw [scanScopes, hnone m (by omega)]
    simp only [Bool.false_eq_true, if_false]
    exact ih (fun j hj => hnone j (by omega))

end Resolver

/-- C1: for every variable, assignment, `this` or `super` node, `resolveLocal`
scans the scope stack innermost→outermost (stack index `i`, size `n`); at the
innermost scope containing the name it records depth `n - 1 - i` for the node
in the interpreter's depth table and stops, and when no scope contains the
name it records nothing. -/
theorem resolveLocal_innermost_depth (st : ResolverState) (id : Nat) (name : Token) :
    (∀ i, i < st.scopes.length → Resolver.containsAt st.scopes i name.lexeme = true →
      (∀ j, j < st.scopes.length → i < j → Resolver.containsAt st.scopes j name.lexeme = false) →
      Resolver.resolveLocal st id name =
        { st with locals := st.locals ++ [(id, st.scopes.length - 1 - i)] })
    ∧ ((∀ j, j < st.scopes.length → Resolver.containsAt st.scopes j name.lexeme = false) →
      Resolver.resolveLocal st id name = st) := by
  constructor
  · intro i hi hc hnone
    have hs := Resolver.scanScopes_some st.scopes name.lexeme st.scopes.length i hi hc hnone
    simp [Resolver.resolveLocal, hs]
  · intro hnone
    have hs := Resolver.scanScopes_none st.scopes name.lexeme st.scopes.length hnone
    simp [Resolver.resolveLocal, hs]

/-- Witness for C1: in a stack of two scopes where only the outer scope (stack
index 0) binds `x`, `resolveLocal` records depth `2 - 1 - 0 = 1`. -/
theorem resolveLocal_innermost_depth_witness :
    Resolver.resolveLocal c1State 5 ⟨"x", 9⟩ = { c1State with locals := [(5, 1)] } :=
  (resolveLocal_innermost_depth c1State 5 ⟨"x", 9⟩).1 0 (by decide) (by decide) (by decide)

namespace Resolver

theorem resolveLocal_errors (st : ResolverState) (id : Nat) (name : Token) :
    (resolveLocal st id name).errors = st.errors := by
  cases h : scanScopes st.scopes name.lexeme st.scopes.length <;>
    simp [resolveLocal, h]

theorem resolveLocal_report_locals (st : ResolverState) (k : ResolvingErrorKind) (l : Nat)
    (id : Nat) (name : Token) :
    (resolveLocal (report st k l) id name).locals = (resolveLocal st id name).locals := by
  cases h : scanScopes st.scopes name.lexeme st.scopes.length <;>
    simp [resolveLocal, report, h]

end Resolver

/-- C2, code-bug evidence: resolving `class B < B {}` while one (block) scope
is on the stack reports exactly one self-inheritance error but pops TWO scopes
after pushing only one (the `this` scope): the `super` scope push is skipped
inside the error branch, yet the trailing `if (stmt.superclass !== null)
this.endScope()` still fires, so the enclosing block's scope is removed and
the stack ends at height 0 instead of the prior height 1. -/
theorem classSelfInheritance_unbalanced_scopes :
    Resolver.resolveStmt c2Stmt c2State =
      ⟨[], FunctionType.none, ClassType.none, [⟨.selfInheritance, 1⟩], []⟩ ∧
    c2State.scopes.length = 1 := by
  constructor
  · simp [Resolver.resolveStmt, Resolver.resolveMethods, Resolver.declare, Resolver.define,
      Resolver.report, Resolver.beginScope, Resolver.endScope, Resolver.updateTop,
      Resolver.visitVariable, Resolver.resolveLocal, Resolver.scanScopes, Resolver.containsAt,
      scopeGet, scopeSet, c2State, c2Stmt]
  · rfl

/-- C3, counterexample: with the current class kind `None` and a scope binding
`this` on the stack, visiting a `this` expression reports the error but
returns early WITHOUT calling `resolveLocal`: no depth is recorded, although
`resolveLocal` would have recorded depth 0 for the node. -/
theorem thisOutsideClass_skips_resolveLocal_cex :
    (Resolver.resolveExpr (Expr.thisE 0 ⟨"this", 4⟩) c3State).errors =
      [⟨.thisOutsideClass, 4⟩] ∧
    (Resolver.resolveExpr (Expr.thisE 0 ⟨"this", 4⟩) c3State).locals = [] ∧
    (Resolver.resolveLocal c3State 0 ⟨"this", 4⟩).locals = [(0, 0)] := by
  refine ⟨?_, ?_, ?_⟩ <;>
    simp [Resolver.resolveExpr, Resolver.visitThis, Resolver.report, Resolver.resolveLocal,
      Resolver.scanScopes, Resolver.containsAt, scopeGet, c3State]

/-- C3, amended: visiting a `super` expression reports an error when the
current class kind is `None` (and, otherwise, when the kind is not `Subclass`)
and in ALL cases still calls `resolveLocal` on the keyword; visiting a `this`
expression reports an error when the kind is `None` but then returns early
without calling `resolveLocal`, recording a depth only in the non-error
cases. -/
theorem superThis_error_handling (st : ResolverState) (id : Nat) (kw : Token) :
    ((Resolver.resolveExpr (Expr.superE id kw) st).errors =
      st.errors ++
        (if st.currentClass = ClassType.none then [⟨.superOutsideClass, kw.line⟩]
         else if st.currentClass = ClassType.subClass then []
         else [⟨.superInNonSubclass, kw.line⟩]))
    ∧ ((Resolver.resolveExpr (Expr.superE id kw) st).locals =
      (Resolver.resolveLocal st id kw).locals)
    ∧ ((Resolver.resolveExpr (Expr.thisE id kw) st).errors =
      st.errors ++
        (if st.currentClass = ClassType.none then [⟨.thisOutsideClass, kw.line⟩] else []))
    ∧ ((Resolver.resolveExpr (Expr.thisE id kw) st).locals =
      if st.currentClass = ClassType.none then st.locals
      else (Resolver.resolveLocal st id kw).locals) := by
  refine ⟨?_, ?_, ?_, ?_⟩ <;>
    cases hc : st.currentClass <;>
      simp [Resolver.resolveExpr, Resolver.visitSuper, Resolver.visitThis, hc,
        Resolver.report, Resolver.resolveLocal_errors] <;>
      (cases hs : Resolver.scanScopes st.scopes kw.lexeme st.scopes.length <;>
        simp [Resolver.resolveLocal, hs])

theorem scopeGet_scopeSet_self (s : Scope) (k : String) (v : Bool) :
    scopeGet (scopeSet s k v) k = some v := by
  induction s with
  | nil => simp [scopeSet, scopeGet]
  | cons kv rest ih =>
    obtain ⟨k2, v2⟩ := kv
    by_cases h : k2 = k <;> simp [scopeSet, scopeGet, h, ih]

namespace Resolver

theorem updateTop_eq : ∀ (ss : List Scope) (f : Scope → Scope) (s : Scope),
    ss.getLast? = some s → updateTop ss f = ss.dropLast ++ [f s]
  | [], _, _, h => by simp at h
  | [x], f, s, h => by
    simp at h
    subst h
    simp [updateTop]
  | x :: y :: rest, f, s, h => by
    have h2 : (y :: rest).getLast? = some s := by
      rwa [List.getLast?_cons_cons] at h
    have ih := updateTop_eq (y :: rest) f s h2
    simp [updateTop, ih]

theorem declare_fresh (st : ResolverState) (name : Token) (s : Scope)
    (h : st.scopes.getLast? = some s) (hf : scopeGet s name.lexeme = Option.none) :
    declare st name =
      { st with scopes := updateTop st.scopes (fun sc => scopeSet sc name.lexeme false) } := by
  simp [declare, h, hf]

theorem declare_dup (st : ResolverState) (name : Token) (s : Scope)
    (h : st.scopes.getLast? = some s) (hd : (scopeGet s name.lexeme).isSome = true) :
    declare st name =
      { st with
          errors := st.errors ++ [⟨.alreadyDeclaredInScope, name.line⟩]
          scopes := updateTop st.scopes (fun sc => scopeSet sc name.lexeme false) } := by
  simp [declare, h, hd, report]

end Resolver

/-- C4: declaring a name twice in the same (innermost, non-top-level) scope
reports exactly one resolution error carrying the second token's line;
declaring the same name again in a freshly pushed nested scope reports no
error (shadowing); and `declare` on an empty scope stack (top level) is a
no-op. -/
theorem declare_duplicate_shadowing_toplevel :
    (∀ (st : ResolverState) (name : Token), st.scopes = [] → Resolver.declare st name = st)
    ∧ (∀ (st : ResolverState) (t1 t2 : Token) (s : Scope), t1.lexeme = t2.lexeme →
        st.scopes.getLast? = some s → scopeGet s t1.lexeme = Option.none →
        (Resolver.declare (Resolver.declare st t1) t2).errors =
          st.errors ++ [⟨.alreadyDeclaredInScope, t2.line⟩])
    ∧ (∀ (st : ResolverState) (t1 t2 : Token) (s : Scope), t1.lexeme = t2.lexeme →
        st.scopes.getLast? = some s → scopeGet s t1.lexeme = Option.none →
        (Resolver.declare (Resolver.beginScope (Resolver.declare st t1)) t2).errors =
          st.errors) := by
  refine ⟨?_, ?_, ?_⟩
  · intro st name h
    simp [Resolver.declare, h]
  · intro st t1 t2 s hlex hlast hfresh
    have h1 := Resolver.declare_fresh st t1 s hlast hfresh
    have hlast2 : (Resolver.declare st t1).scopes.getLast? =
        some (scopeSet s t1.lexeme false) := by
      rw [h1]
      simp [Resolver.updateTop_eq st.scopes _ s hlast]
    have hdup : (scopeGet (scopeSet s t1.lexeme false) t2.lexeme).isSome = true := by
      rw [← hlex, scopeGet_scopeSet_self]
      rfl
    have h2 := Resolver.declare_dup (Resolver.declare st t1) t2 _ hlast2 hdup
    rw [h2, h1]
  · intro st t1 t2 s hlex hlast hfresh
    have h1 := Resolver.declare_fresh st t1 s hlast hfresh
    have hlast2 : (Resolver.beginScope (Resolver.declare st t1)).scopes.getLast? =
        some ([] : Scope) := by
      simp [Resolver.beginScope]
    have h2 := Resolver.declare_fresh (Resolver.beginScope (Resolver.declare st t1)) t2 []
      hlast2 (by simp [scopeGet])
    rw [h2]
    simp [Resolver.beginScope, h1]

/-- Witness for C4: in a state with one fresh scope, declaring `a` (line 1)
and then `a` again (line 2) yields exactly one error at line 2. -/
theorem declare_duplicate_shadowing_toplevel_witness :
    (Resolver.declare (Resolver.declare c4State ⟨"a", 1⟩) ⟨"a", 2⟩).errors =
      [⟨.alreadyDeclaredInScope, 2⟩] :=
  declare_duplicate_shadowing_toplevel.2.1 c4State ⟨"a", 1⟩ ⟨"a", 2⟩ []
    (by decide) (by decide) (by decide)

/-- C5: a return statement reports a resolution error exactly when the current
function kind is `None`, or when it carries a value while the kind is
`Initializer`; a bare return inside `init` reports nothing; and the returned
value expression, when present, is still resolved (after the reports). -/
theorem visitReturn_errors_iff (st : ResolverState) (kw : Token) :
    (Resolver.resolveStmt (.retS kw Option.none) st =
      { st with errors := st.errors ++ returnErrors st.currentFunction false kw.line })
    ∧ (∀ e : Expr, Resolver.resolveStmt (.retS kw (some e)) st =
      Resolver.resolveExpr e
        { st with errors := st.errors ++ returnErrors st.currentFunction true kw.line })
    ∧ (∀ hasValue : Bool, returnErrors st.currentFunction hasValue kw.line ≠ [] ↔
      (st.currentFunction = FunctionType.none ∨
        (hasValue = true ∧ st.currentFunction = FunctionType.initializer))) := by
  refine ⟨?_, ?_, ?_⟩
  · by_cases hf : st.currentFunction = FunctionType.none <;>
      simp [Resolver.resolveStmt, hf, returnErrors, Resolver.report]
  · intro e
    by_cases hf : st.currentFunction = FunctionType.none
    · simp [Resolver.resolveStmt, hf, returnErrors, Resolver.report]
    · by_cases hi : st.currentFunction = FunctionType.initializer <;>
        simp [Resolver.resolveStmt, hf, hi, returnErrors, Resolver.report]
  · intro hv
    cases hf : st.currentFunction <;> cases hv <;> simp [returnErrors]

namespace Resolver

theorem visitVariable_errors (st : ResolverState) (id : Nat) (name : Token) :
    (visitVariable st id name).errors =
      st.errors ++
        (if st.scopes ≠ [] ∧
            (st.scopes.getLast?.bind (fun s => scopeGet s name.lexeme)) = some false then
          [⟨.readLocalInOwnInitializer, name.line⟩]
        else []) := by
  unfold visitVariable
  by_cases hnil : st.scopes = []
  · simp [hnil, resolveLocal_errors]
  · by_cases hb : (st.scopes.getLast?.bind (fun s => scopeGet s name.lexeme)) = some false
    · have hie : st.scopes.isEmpty = false := by
        cases hsc : st.scopes
        · exact absurd hsc hnil
        · rfl
      simp [hie, hb, resolveLocal_errors, report, hnil]
    · have hbb : ((st.scopes.getLast?.bind (fun s => scopeGet s name.lexeme)) == some false)
          = false := by
        cases ho : st.scopes.getLast?.bind (fun s => scopeGet s name.lexeme)
        · rfl
        · rename_i v
          cases v
          · exact absurd ho hb
          · rfl
      simp [hbb, hb, resolveLocal_errors]

end Resolver

/-- C6: visiting a variable expression reports the
read-local-in-its-own-initializer error exactly when the scope stack is
non-empty and the innermost scope maps the name to the not-yet-ready status
`false`; and a var statement opens that window by declaring the name before
resolving its initializer, defining it only afterwards. -/
theorem visitVariable_own_initializer_window (st : ResolverState) (id : Nat) (name : Token) :
    ((Resolver.resolveExpr (Expr.varE id name) st).errors =
      st.errors ++
        (if st.scopes ≠ [] ∧
            (st.scopes.getLast?.bind (fun s => scopeGet s name.lexeme)) = some false then
          [⟨.readLocalInOwnInitializer, name.line⟩]
        else []))
    ∧ (∀ e : Expr, Resolver.resolveStmt (.varS name (some e)) st =
      Resolver.define (Resolver.resolveExpr e (Resolver.declare st name)) name) := by
  constructor
  · simp only [Resolver.resolveExpr]
    exact Resolver.visitVariable_errors st id name
  · intro e
    simp [Resolver.resolveStmt]

/-- A subclass overriding `m` over a superclass defining `m` and `n`, used to
witness the chain walk. -/
def c7Class : LoxClass :=
  .derived "B" (.base "A" [("m", ⟨0, LoxValue.nil⟩), ("n", ⟨1, LoxValue.nil⟩)])
    [("m", ⟨2, LoxValue.nil⟩)]

/-- C8: resolving a logical (and/or) expression resolves the RIGHT operand
first and then the left, while a binary expression resolves LEFT first then
right; the asymmetry is observable in the order depth-table entries are
recorded. -/
theorem logical_resolves_right_before_left :
    (∀ (st : ResolverState) (l r : Expr),
      Resolver.resolveExpr (.logical l r) st = Resolver.resolveExpr l (Resolver.resolveExpr r st))
    ∧ (∀ (st : ResolverState) (l r : Expr),
      Resolver.resolveExpr (.binary l r) st = Resolver.resolveExpr r (Resolver.resolveExpr l st))
    ∧ (Resolver.resolveExpr (.logical (.varE 1 ⟨"a", 1⟩) (.varE 2 ⟨"b", 1⟩)) c8State).locals =
      [(2, 0), (1, 0)]
    ∧ (Resolver.resolveExpr (.binary (.varE 1 ⟨"a", 1⟩) (.varE 2 ⟨"b", 1⟩)) c8State).locals =
      [(1, 0), (2, 0)] := by
  refine ⟨?_, ?_, ?_, ?_⟩
  · intro st l r
    simp [Resolver.resolveExpr]
  · intro st l r
    simp [Resolver.resolveExpr]
  · simp [Resolver.resolveExpr, Resolver.visitVariable, Resolver.resolveLocal,
      Resolver.scanScopes, Resolver.containsAt, scopeGet, c8State, Resolver.report]
  · simp [Resolver.resolveExpr, Resolver.visitVariable, Resolver.resolveLocal,
      Resolver.scanScopes, Resolver.containsAt, scopeGet, c8State, Resolver.report]

theorem LoxClass.findMethod_eq_findSome : ∀ (c : LoxClass) (name : String),
    c.findMethod name = c.ancestors.findSome? (fun k => methodLookup k.methods name)
  | .base n ms, name => by
    cases h : methodLookup ms name <;>
      simp [LoxClass.findMethod, LoxClass.ancestors, LoxClass.methods, List.findSome?, h]
  | .derived n sup ms, name => by
    have ih := LoxClass.findMethod_eq_findSome sup name
    cases h : methodLookup ms name <;>
      simp [LoxClass.findMethod, LoxClass.ancestors, LoxClass.methods, List.findSome?, h, ih]

theorem LoxClass.findMethod_eq_none_iff : ∀ (c : LoxClass) (name : String),
    c.findMethod name = Option.none ↔
      ∀ k ∈ c.ancestors, methodLookup k.methods name = Option.none
  | .base n ms, name => by
    simp [LoxClass.findMethod, LoxClass.ancestors, LoxClass.methods]
  | .derived n sup ms, name => by
    have ih := LoxClass.findMethod_eq_none_iff sup name
    cases h : methodLookup ms name <;>
      simp [LoxClass.findMethod, LoxClass.ancestors, LoxClass.methods, h, ih]

/-- C7: `findMethod` returns the first match walking the chain from the class
itself up through its superclasses (so an own-table entry wins and a subclass
override shadows the superclass version), and returns null — not an error —
exactly when no class in the chain defines the name. -/
theorem findMethod_chain_walk (c : LoxClass) (name : String) :
    c.findMethod name = c.ancestors.findSome? (fun k => methodLookup k.methods name)
    ∧ (c.findMethod name = Option.none ↔
      ∀ k ∈ c.ancestors, methodLookup k.methods name = Option.none) :=
  ⟨LoxClass.findMethod_eq_findSome c name, LoxClass.findMethod_eq_none_iff c name⟩

/-- Witness for C7: the subclass override of `m` shadows the superclass
version, and a name defined nowhere in the chain yields null. -/
theorem findMethod_chain_walk_witness :
    LoxClass.findMethod c7Class "m" = some ⟨2, LoxValue.nil⟩ ∧
    LoxClass.findMethod c7Class "init" = Option.none :=
  ⟨(findMethod_chain_walk c7Class "m").1.trans (by decide),
   (findMethod_chain_walk c7Class "init").2.mpr (by decide)⟩

/-- C9: calling a class as a callable always returns a freshly created
instance of that class with empty fields; when `findMethod('init')` finds an
initializer (own or inherited) it is bound to that fresh instance and invoked
with the call's arguments, its produced value being discarded; with no
initializer, nothing is invoked. -/
theorem classCall_returns_instance (c : LoxClass) (args : List LoxValue) :
    ((c.call args).result = ⟨c, []⟩)
    ∧ (∀ f : LoxFunction, c.findMethod "init" = some f →
      (c.call args).initCall = some (f, ⟨c, []⟩, args))
    ∧ (c.findMethod "init" = Option.none → (c.call args).initCall = Option.none) := by
  refine ⟨?_, ?_, ?_⟩
  · cases h : c.findMethod "init" <;> simp [LoxClass.call, h]
  · intro f hf
    simp [LoxClass.call, hf]
  · intro hn
    simp [LoxClass.call, hn]

/-- Witness for C9: instantiating a subclass with an inherited initializer
returns the fresh instance and invokes that initializer on it with the
arguments. -/
theorem classCall_returns_instance_witness :
    (c9Class.call [LoxValue.number 3]).result = ⟨c9Class, []⟩ ∧
    (c9Class.call [LoxValue.number 3]).initCall =
      some (c9Init, ⟨c9Class, []⟩, [LoxValue.number 3]) :=
  ⟨(classCall_returns_instance c9Class [LoxValue.number 3]).1,
   (classCall_returns_instance c9Class [LoxValue.number 3]).2.1 c9Init (by decide)⟩

/-- C10, counterexample: a class whose own `init` has arity 0 makes
`arity() = 0` even though a class in the chain does define `init`, refuting
the claimed "returns 0 exactly when no class in the chain defines init". -/
theorem arity_zero_despite_init_cex :
    LoxClass.arity c10Class = 0 ∧
    ¬ (∀ k ∈ c10Class.ancestors, methodLookup k.methods "init" = Option.none) := by
  constructor
  · decide
  · decide

/-- C10, amended: `arity()` returns the arity of the `init` found by
`findMethod` (inheriting the nearest superclass initializer's arity), returns
0 when no class in the chain defines `init` — and `findMethod('init')` finds
nothing exactly when no class in the chain defines it. (It also returns 0
when the found `init` itself has arity 0, so "exactly when" fails.) -/
theorem arity_from_findMethod (c : LoxClass) :
    (∀ f : LoxFunction, c.findMethod "init" = some f → c.arity = f.arity)
    ∧ (c.findMethod "init" = Option.none → c.arity = 0)
    ∧ (c.findMethod "init" = Option.none ↔
      ∀ k ∈ c.ancestors, methodLookup k.methods "init" = Option.none) := by
  refine ⟨?_, ?_, ?_⟩
  · intro f hf
    simp [LoxClass.arity, hf]
  · intro hn
    simp [LoxClass.arity, hn]
  · exact LoxClass.findMethod_eq_none_iff c "init"

/-- Witness for C10: a subclass with no own methods inherits the arity (2) of
its superclass initializer. -/
theorem arity_from_findMethod_witness :
    LoxClass.arity c10Inherit = 2 :=
  (arity_from_findMethod c10Inherit).1 ⟨2, LoxValue.nil⟩ (by decide)
